import Mathlib

/-!
Verification development for the owimetadatabase_soilapi client library.

The repository ships the notebooks `Locations API - Demo` and
`Geotechnical data API - Demo`, which exercise the `LocationsAPI` and
`SoilAPI` classes of the package `owimetadatabase_soilapi`.  The package
module itself (`owimetadatabase_soilapi/locations/io.py` and
`owimetadatabase_soilapi/soil/io.py`) is not part of the source tree here,
so the parametric query-and-resolve layer is modelled from the
specification: JSON records, AND-combined filters, list/detail resolution,
the error taxonomy, pagination following, tabular normalisation with
numeric coercion, geo radius/profile filtering and soil-profile layer
ordering.
-/

namespace Owi

/-- Modelled from the spec: a JSON field value as stored in a server record —
a string, an exact numeric value, or null.  The Python package is absent from
the source tree; this models the value space of §3 of the specification. -/
inductive Value where
  | str : String → Value
  | num : ℚ → Value
  | null : Value
deriving DecidableEq, Repr

/-- Modelled from the spec: a server record is a flat JSON object, i.e. an
association list from field names to values. -/
abbrev Record := List (String × Value)

/-- Generic association-list lookup (first matching key wins). -/
def assocLookup {β : Type} : List (String × β) → String → Option β
  | [], _ => none
  | (k, v) :: r, key => if k = key then some v else assocLookup r key

/-- Modelled from the spec: the named filter arguments of an accessor call,
mapped onto HTTP query parameters — an association list of field name and
required value.  An absent filter is simply absent from the list. -/
abbrev Filters := List (String × Value)

/-- The keys present in a record. -/
def keysOf (r : Record) : List String := r.map (fun p => p.1)

/-- Modelled from the spec: a record satisfies a filter set iff it satisfies
every supplied filter (filters are combined with logical AND; absent filters
impose no constraint). -/
def matchesFilters (r : Record) (fs : Filters) : Bool :=
  fs.all (fun kv => decide (assocLookup r kv.1 = some kv.2))

/-- Modelled from the spec: a per-layer record of a soil profile — top and
bottom depth, soil type, individual numeric parameters and piecewise (linear
from/to) parameter definitions. -/
structure Layer where
  top : ℚ
  bottom : ℚ
  soilType : String
  params : List (String × ℚ)
  piecewise : List (String × ℚ × ℚ)
deriving DecidableEq, Repr

/-- Modelled from the spec: one server-side entity row as decoded from a list
response: its scalar fields, an embedded depth-indexed raw measurement series
(empty for entities without one) and soil-profile layers (empty for entities
other than soil profiles). -/
structure Entry where
  fields : Record
  raw : List Record
  layers : List Layer
deriving DecidableEq, Repr

/-- Modelled from the spec: the error taxonomy of §7.  Exactly five kinds;
every kind carries the filters/arguments that produced it. -/
inductive ApiError where
  | transport (args : Filters) (detail : String)
  | authorizationError (args : Filters) (detail : String)
  | responseFormat (args : Filters) (detail : String)
  | notFound (args : Filters)
  | ambiguousResult (args : Filters) (candidates : List Value)
deriving DecidableEq, Repr

/-- The filters/arguments carried by a failure. -/
def ApiError.args : ApiError → Filters
  | .transport a _ => a
  | .authorizationError a _ => a
  | .responseFormat a _ => a
  | .notFound a => a
  | .ambiguousResult a _ => a

/-- Modelled from the spec: the list-query core — retain exactly the records
of the (already decoded) server table that satisfy all supplied filters. -/
def listQuery (tbl : List Entry) (fs : Filters) : List Entry :=
  tbl.filter (fun e => matchesFilters e.fields fs)

/-- The identifier reported for a candidate record in an AmbiguousResult
error: its id field, falling back to its title, else null. -/
def recordId (r : Record) : Value :=
  match assocLookup r "id" with
  | some v => v
  | none =>
    match assocLookup r "title" with
    | some v => v
    | none => Value.null

/-- Modelled from the spec: detail resolution (§4.1) — a detail accessor
performs the list query, then requires exactly one match: zero matches fail
with NotFound naming the filters, two or more fail with AmbiguousResult
listing the candidate identifiers; it never silently picks one. -/
def resolveDetail (tbl : List Entry) (fs : Filters) : Except ApiError Entry :=
  match listQuery tbl fs with
  | [] => .error (.notFound fs)
  | [e] => .ok e
  | es => .error (.ambiguousResult fs (es.map (fun e => recordId e.fields)))

theorem matchesFilters_iff (r : Record) (fs : Filters) :
    matchesFilters r fs = true ↔ ∀ kv ∈ fs, assocLookup r kv.1 = some kv.2 := by
  simp [matchesFilters, List.all_eq_true]

theorem mem_listQuery (tbl : List Entry) (fs : Filters) (e : Entry) :
    e ∈ listQuery tbl fs ↔ e ∈ tbl ∧ matchesFilters e.fields fs = true := by
  simp [listQuery, List.mem_filter]

theorem listQuery_nil_filters (tbl : List Entry) : listQuery tbl [] = tbl := by
  simp [listQuery, matchesFilters]

theorem resolveDetail_nil (tbl : List Entry) (fs : Filters)
    (h : listQuery tbl fs = []) : resolveDetail tbl fs = .error (.notFound fs) := by
  simp [resolveDetail, h]

theorem resolveDetail_single (tbl : List Entry) (fs : Filters) (e : Entry)
    (h : listQuery tbl fs = [e]) : resolveDetail tbl fs = .ok e := by
  simp [resolveDetail, h]

theorem resolveDetail_many (tbl : List Entry) (fs : Filters)
    (h : 2 ≤ (listQuery tbl fs).length) :
    resolveDetail tbl fs =
      .error (.ambiguousResult fs ((listQuery tbl fs).map (fun e => recordId e.fields))) := by
  unfold resolveDetail
  match hq : listQuery tbl fs with
  | [] => rw [hq] at h; simp at h
  | [e] => rw [hq] at h; simp at h
  | a :: b :: es => rfl

/-- Append the unseen keys of one record to the accumulated column list,
keeping first-observed order. -/
def addKeys (acc : List String) : List String → List String
  | [] => acc
  | k :: ks => if k ∈ acc then addKeys acc ks else addKeys (acc ++ [k]) ks

/-- Modelled from the spec: the column set of a page of records is the union
of keys observed across the records, in first-observed order — no fixed
schema is assumed. -/
def unionKeys (rs : List Record) : List String :=
  rs.foldl (fun acc r => addKeys acc (keysOf r)) []

theorem mem_addKeys (acc ks : List String) (k : String) :
    k ∈ addKeys acc ks ↔ k ∈ acc ∨ k ∈ ks := by
  induction ks generalizing acc with
  | nil => simp [addKeys]
  | cons a ks ih =>
    by_cases ha : a ∈ acc
    · simp only [addKeys, if_pos ha, ih, List.mem_cons]
      constructor
      · rintro (h | h)
        · exact Or.inl h
        · exact Or.inr (Or.inr h)
      · rintro (h | h | h)
        · exact Or.inl h
        · exact Or.inl (h ▸ ha)
        · exact Or.inr h
    · simp only [addKeys, if_neg ha, ih, List.mem_append, List.mem_singleton, List.mem_cons]
      tauto

theorem mem_unionKeys (rs : List Record) (k : String) :
    k ∈ unionKeys rs ↔ ∃ r ∈ rs, k ∈ keysOf r := by
  have h : ∀ (rs : List Record) (acc : List String),
      k ∈ rs.foldl (fun acc r => addKeys acc (keysOf r)) acc ↔
        k ∈ acc ∨ ∃ r ∈ rs, k ∈ keysOf r := by
    intro rs
    induction rs with
    | nil => intro acc; simp
    | cons r rs ih =>
      intro acc
      simp only [List.foldl_cons, ih, mem_addKeys, List.mem_cons]
      constructor
      · rintro ((h | h) | ⟨r', hr', hk⟩)
        · exact Or.inl h
        · exact Or.inr ⟨r, Or.inl rfl, h⟩
        · exact Or.inr ⟨r', Or.inr hr', hk⟩
      · rintro (h | ⟨r', hr' | hr', hk⟩)
        · exact Or.inl (Or.inl h)
        · exact Or.inl (Or.inr (hr' ▸ hk))
        · exact Or.inr ⟨r', hr', hk⟩
  simpa using h rs []

theorem assocLookup_some_mem_keys {β : Type} (r : List (String × β)) (k : String) (v : β)
    (h : assocLookup r k = some v) : k ∈ r.map (fun p => p.1) := by
  induction r with
  | nil => simp [assocLookup] at h
  | cons p r ih =>
    by_cases hk : p.1 = k
    · simp [hk]
    · simp only [assocLookup] at h
      rw [if_neg hk] at h
      simp [ih h]

/-- A decimal digit run folded into a natural number; fails on any
non-digit character. -/
def digitsToNat (acc : Nat) : List Char → Option Nat
  | [] => some acc
  | c :: cs => if c.isDigit then digitsToNat (acc * 10 + (c.toNat - 48)) cs else none

/-- Split a character list at the first decimal point, if any. -/
def splitOnDot : List Char → List Char × Option (List Char)
  | [] => ([], none)
  | c :: cs =>
    if c = '.' then ([], some cs)
    else
      let p := splitOnDot cs
      (c :: p.1, p.2)

/-- Parse an unsigned decimal literal (digits, optionally a point and
fractional digits) into an exact rational. -/
def parseUnsigned (cs : List Char) : Option ℚ :=
  match splitOnDot cs with
  | (intPart, none) =>
    if intPart = [] then none
    else (digitsToNat 0 intPart).map (fun n => (n : ℚ))
  | (intPart, some fracPart) =>
    if intPart = [] ∨ fracPart = [] then none
    else
      match digitsToNat 0 intPart, digitsToNat 0 fracPart with
      | some n, some f => some ((n : ℚ) + (f : ℚ) / ((10 : ℚ) ^ fracPart.length))
      | _, _ => none

/-- Modelled from the spec: the numeric-coercion parser — a field value that
is a well-formed textual representation of a (possibly signed, possibly
fractional) decimal number denotes an exact rational; anything else fails. -/
def parseNum (s : String) : Option ℚ :=
  match s.data with
  | [] => none
  | c :: cs => if c = '-' then (parseUnsigned cs).map (fun q => -q) else parseUnsigned (c :: cs)

/-- Modelled from the spec: coercion of one field value — a textual number is
coerced to its exact numeric value; a string that fails to parse is kept
unchanged and reported as a coercion failure (second component true). -/
def coerceValue : Value → Value × Bool
  | .str s =>
    match parseNum s with
    | some q => (.num q, false)
    | none => (.str s, true)
  | v => (v, false)

/-- Modelled from the spec: the value placed in a table cell for record `r`
at column `c` — explicit null when the key is missing, the coerced value when
the column is a declared numeric column, the raw value otherwise. -/
def coerceField (numCols : List String) (r : Record) (c : String) : Value :=
  match assocLookup r c with
  | none => Value.null
  | some v => if c ∈ numCols then (coerceValue v).1 else v

/-- Modelled from the spec: a row is flagged iff some declared numeric column
of it held a string that failed numeric coercion. -/
def rowFlag (numCols : List String) (cols : List String) (r : Record) : Bool :=
  cols.any (fun c =>
    if c ∈ numCols then
      match assocLookup r c with
      | some v => (coerceValue v).2
      | none => false
    else false)

/-- Modelled from the spec: the tabular form of a page of records — columns,
one value row per record in response order, and a per-row coercion-failure
flag. -/
structure Table where
  cols : List String
  rows : List (List Value)
  flags : List Bool
deriving DecidableEq, Repr

/-- Modelled from the spec: tabular conversion of a page of JSON records
(§4.2) — one row per record, columns the union of observed keys, missing
values as explicit nulls, numeric columns coerced, coercion failures flagged
per row, never failing the call. -/
def toTable (numCols : List String) (rs : List Record) : Table :=
  Table.mk (unionKeys rs)
    (rs.map (fun r => (unionKeys rs).map (coerceField numCols r)))
    (rs.map (rowFlag numCols (unionKeys rs)))

/-- Index of the first occurrence of a column name. -/
def colIndex : List String → String → Nat
  | [], _ => 0
  | c :: cs, k => if c = k then 0 else colIndex cs k + 1

/-- The value of table `t` at row `i`, column `c`. -/
def rowValue (t : Table) (i : Nat) (c : String) : Option Value :=
  match t.rows.get? i with
  | none => none
  | some row => row.get? (colIndex t.cols c)

theorem get_map_colIndex {β : Type} (cols : List String) (f : String → β) (c : String)
    (h : c ∈ cols) : (cols.map f).get? (colIndex cols c) = some (f c) := by
  induction cols with
  | nil => simp at h
  | cons a cs ih =>
    by_cases ha : a = c
    · subst ha; simp [colIndex]
    · rcases List.mem_cons.mp h with h1 | h1
      · exact absurd h1.symm ha
      · simp only [colIndex, if_neg ha, List.map_cons, List.get?_cons_succ]
        exact ih h1

theorem rowValue_toTable (numCols : List String) (rs : List Record) (i : Nat) (r : Record)
    (hi : rs.get? i = some r) (c : String) (hc : c ∈ unionKeys rs) :
    rowValue (toTable numCols rs) i c = some (coerceField numCols r c) := by
  unfold rowValue toTable
  simp only [List.get?_map, hi, Option.map_some]
  exact get_map_colIndex (unionKeys rs) (coerceField numCols r) c hc

theorem flags_toTable (numCols : List String) (rs : List Record) (i : Nat) (r : Record)
    (hi : rs.get? i = some r) :
    (toTable numCols rs).flags.get? i = some (rowFlag numCols (unionKeys rs) r) := by
  unfold toTable
  rw [List.get?_map, hi]
  rfl

/-- Sort a list ascending by a rational-valued key (stable insertion sort). -/
def sortByKey {α : Type} (key : α → ℚ) (l : List α) : List α :=
  List.insertionSort (fun a b => key a ≤ key b) l

theorem sortByKey_perm {α : Type} (key : α → ℚ) (l : List α) :
    List.Perm (sortByKey key l) l :=
  List.perm_insertionSort _ l

theorem sortByKey_sorted {α : Type} (key : α → ℚ) (l : List α) :
    List.Pairwise (fun a b => key a ≤ key b) (sortByKey key l) := by
  haveI : IsTotal α (fun a b => key a ≤ key b) := ⟨fun a b => le_total _ _⟩
  haveI : IsTrans α (fun a b => key a ≤ key b) := ⟨fun _ _ _ hab hbc => le_trans hab hbc⟩
  exact List.sorted_insertionSort _ l

theorem mem_sortByKey {α : Type} (key : α → ℚ) (l : List α) (a : α) :
    a ∈ sortByKey key l ↔ a ∈ l :=
  (sortByKey_perm key l).mem_iff

/-- Modelled from the spec: pairwise-ascending top depths of a soil profile
layer list, checked as the server-order validation step of the normalizer. -/
def layersSorted (ls : List Layer) : Bool :=
  decide (List.Chain' (fun a b => a.top ≤ b.top) ls)

/-- Modelled from the spec: the soil-profile layer normalizer — it validates
the server-provided order and only sorts (by top depth ascending) when the
validation fails; an already ordered payload is returned unchanged. -/
def normalizeLayers (ls : List Layer) : List Layer :=
  if layersSorted ls then ls else sortByKey Layer.top ls

theorem layersSorted_iff (ls : List Layer) :
    layersSorted ls = true ↔ List.Pairwise (fun a b : Layer => a.top ≤ b.top) ls := by
  haveI : IsTrans Layer (fun a b : Layer => a.top ≤ b.top) :=
    ⟨fun _ _ _ hab hbc => le_trans hab hbc⟩
  simp only [layersSorted, decide_eq_true_eq]
  exact List.chain'_iff_pairwise

theorem normalizeLayers_sorted (ls : List Layer) :
    List.Pairwise (fun a b : Layer => a.top ≤ b.top) (normalizeLayers ls) := by
  unfold normalizeLayers
  by_cases h : layersSorted ls
  · rw [if_pos h]; exact (layersSorted_iff ls).mp h
  · rw [if_neg h]; exact sortByKey_sorted Layer.top ls

theorem normalizeLayers_of_sorted (ls : List Layer)
    (h : List.Pairwise (fun a b : Layer => a.top ≤ b.top) ls) :
    normalizeLayers ls = ls := by
  unfold normalizeLayers
  rw [if_pos ((layersSorted_iff ls).mpr h)]

theorem normalizeLayers_perm (ls : List Layer) :
    List.Perm (normalizeLayers ls) ls := by
  unfold normalizeLayers
  by_cases h : layersSorted ls
  · rw [if_pos h]
  · rw [if_neg h]; exact sortByKey_perm Layer.top ls

/-- The structured parts a successful accessor call can place in its result
dictionary: a table, a single record, or an ordered soil-profile layer
sequence. -/
inductive Out where
  | table : Table → Out
  | record : Record → Out
  | profile : List Layer → Out
deriving DecidableEq, Repr

/-- Modelled from the spec: the numeric (coordinate/geometry) columns the
normalizer coerces for location-bearing endpoints. -/
def geoNumCols : List String :=
  ["latitude", "longitude", "easting", "northing", "elevation"]

/-- Which entity-specific key a detail accessor exposes next to "data":
none, "cpt", "rawdata" or "soilprofile". -/
inductive DetailKind where
  | plain
  | cpt
  | rawdata
  | soilprofile
deriving DecidableEq, Repr

/-- Modelled from the spec: the result dictionary of a successful detail
call — the resolved record under "data", plus the structured payload under
the entity-specific key. -/
def detailOutput : DetailKind → Entry → List (String × Out)
  | .plain, e => [("data", .record e.fields)]
  | .cpt, e => [("data", .record e.fields), ("cpt", .table (toTable [] e.raw))]
  | .rawdata, e => [("data", .record e.fields), ("rawdata", .table (toTable [] e.raw))]
  | .soilprofile, e =>
    [("data", .record e.fields), ("soilprofile", .profile (normalizeLayers e.layers))]

/-- Modelled from the spec: the generic list accessor over the outcome of the
HTTP fetch/decode stage — a transport-stage failure propagates unmodified; a
decoded table is filtered by the AND of the supplied filters and normalized
into the "data" table of the result dictionary.  No record matching is never
an error. -/
def listAccessor (resp : Except ApiError (List Entry)) (fs : Filters) :
    Except ApiError (List (String × Out)) :=
  match resp with
  | .error e => .error e
  | .ok tbl =>
    .ok [("data", .table (toTable geoNumCols ((listQuery tbl fs).map Entry.fields)))]

/-- Modelled from the spec: the generic detail accessor — a transport-stage
failure propagates unmodified; otherwise the list query result is resolved to
exactly one record or the call fails with NotFound/AmbiguousResult. -/
def detailAccessor (kind : DetailKind) (resp : Except ApiError (List Entry)) (fs : Filters) :
    Except ApiError (List (String × Out)) :=
  match resp with
  | .error e => .error e
  | .ok tbl =>
    match resolveDetail tbl fs with
    | .error e => .error e
    | .ok e => .ok (detailOutput kind e)

/-- Modelled from the spec: `LocationsAPI.get_projectsites`. -/
def get_projectsites (resp : Except ApiError (List Entry)) (fs : Filters) :
    Except ApiError (List (String × Out)) := listAccessor resp fs

/-- Modelled from the spec: `LocationsAPI.get_assetlocations`. -/
def get_assetlocations (resp : Except ApiError (List Entry)) (fs : Filters) :
    Except ApiError (List (String × Out)) := listAccessor resp fs

/-- Modelled from the spec: `SoilAPI.get_surveycampaigns`. -/
def get_surveycampaigns (resp : Except ApiError (List Entry)) (fs : Filters) :
    Except ApiError (List (String × Out)) := listAccessor resp fs

/-- Modelled from the spec: `SoilAPI.get_testlocations`. -/
def get_testlocations (resp : Except ApiError (List Entry)) (fs : Filters) :
    Except ApiError (List (String × Out)) := listAccessor resp fs

/-- Modelled from the spec: `SoilAPI.get_insitutests`. -/
def get_insitutests (resp : Except ApiError (List Entry)) (fs : Filters) :
    Except ApiError (List (String × Out)) := listAccessor resp fs

/-- Modelled from the spec: `SoilAPI.get_batchlabtests`. -/
def get_batchlabtests (resp : Except ApiError (List Entry)) (fs : Filters) :
    Except ApiError (List (String × Out)) := listAccessor resp fs

/-- Modelled from the spec: `SoilAPI.get_geotechnicalsamples`. -/
def get_geotechnicalsamples (resp : Except ApiError (List Entry)) (fs : Filters) :
    Except ApiError (List (String × Out)) := listAccessor resp fs

/-- Modelled from the spec: `SoilAPI.get_sampletests`. -/
def get_sampletests (resp : Except ApiError (List Entry)) (fs : Filters) :
    Except ApiError (List (String × Out)) := listAccessor resp fs

/-- Modelled from the spec: `SoilAPI.get_soilprofiles`. -/
def get_soilprofiles (resp : Except ApiError (List Entry)) (fs : Filters) :
    Except ApiError (List (String × Out)) := listAccessor resp fs

/-- Modelled from the spec: `LocationsAPI.get_projectsite_detail`. -/
def get_projectsite_detail (resp : Except ApiError (List Entry)) (fs : Filters) :
    Except ApiError (List (String × Out)) := detailAccessor .plain resp fs

/-- Modelled from the spec: `LocationsAPI.get_assetlocation_detail`. -/
def get_assetlocation_detail (resp : Except ApiError (List Entry)) (fs : Filters) :
    Except ApiError (List (String × Out)) := detailAccessor .plain resp fs

/-- Modelled from the spec: `SoilAPI.get_surveycampaign_detail`. -/
def get_surveycampaign_detail (resp : Except ApiError (List Entry)) (fs : Filters) :
    Except ApiError (List (String × Out)) := detailAccessor .plain resp fs

/-- Modelled from the spec: `SoilAPI.get_cpttest_detail`; the embedded CPT
measurement series is exposed under the "cpt" key. -/
def get_cpttest_detail (resp : Except ApiError (List Entry)) (fs : Filters) :
    Except ApiError (List (String × Out)) := detailAccessor .cpt resp fs

/-- Modelled from the spec: `SoilAPI.get_insitutest_detail`; the embedded
measurement series is exposed under the "rawdata" key. -/
def get_insitutest_detail (resp : Except ApiError (List Entry)) (fs : Filters) :
    Except ApiError (List (String × Out)) := detailAccessor .rawdata resp fs

/-- Modelled from the spec: `SoilAPI.get_batchlabtest_detail`; the embedded
measurement series is exposed under the "rawdata" key. -/
def get_batchlabtest_detail (resp : Except ApiError (List Entry)) (fs : Filters) :
    Except ApiError (List (String × Out)) := detailAccessor .rawdata resp fs

/-- Modelled from the spec: `SoilAPI.get_sampletest_detail`; the embedded
measurement series is exposed under the "rawdata" key. -/
def get_sampletest_detail (resp : Except ApiError (List Entry)) (fs : Filters) :
    Except ApiError (List (String × Out)) := detailAccessor .rawdata resp fs

/-- Modelled from the spec: `SoilAPI.get_soilprofile_detail`; the normalized
layer sequence is exposed under the "soilprofile" key. -/
def get_soilprofile_detail (resp : Except ApiError (List Entry)) (fs : Filters) :
    Except ApiError (List (String × Out)) := detailAccessor .soilprofile resp fs

/-- A geographic coordinate pair, latitude first (the spec fixes
latitude-first ordering throughout). -/
abbrev Coord := ℚ × ℚ

/-- Modelled from the spec: a candidate test location for the geo-radius
accessor — its record fields and its (latitude, longitude) coordinates. -/
structure GeoCand where
  fields : Record
  coord : Coord
deriving DecidableEq, Repr

/-- Modelled from the spec: the selection step of the geo-radius accessor —
retain the candidates whose great-circle distance from the center is within
the radius and sort them ascending by that distance.  The haversine
great-circle distance on the 6371 km mean-radius sphere prescribed by the
spec is transcendental, so it enters the model as the distance-function
parameter `dist`; the retention, ordering and emptiness semantics hold for
every distance function, hence for the haversine distance. -/
def closestSelection (dist : Coord → Coord → ℚ) (center : Coord) (radius : ℚ)
    (cands : List GeoCand) : List GeoCand :=
  sortByKey (fun c => dist center c.coord)
    (cands.filter (fun c => decide (dist center c.coord ≤ radius)))

/-- Modelled from the spec: `SoilAPI.get_closest_testlocation` — the result
dictionary carries under "data" the table of the in-radius candidates sorted
ascending by distance; an empty selection is an empty table, not an error. -/
def get_closest_testlocation (dist : Coord → Coord → ℚ) (center : Coord) (radius : ℚ)
    (cands : List GeoCand) : List (String × Out) :=
  [("data", .table (toTable geoNumCols ((closestSelection dist center radius cands).map GeoCand.fields)))]

/-- Modelled from the spec: a candidate test location for the geo-profile
accessor, carrying flat-earth locally projected planar coordinates in
meters (the spec leaves the choice of projection to the implementer). -/
structure ProfilePoint where
  fields : Record
  x : ℚ
  y : ℚ
deriving DecidableEq, Repr

/-- The planar position of a profile candidate. -/
def ProfilePoint.pos (c : ProfilePoint) : ℚ × ℚ := (c.x, c.y)

/-- Cross product of the line direction `p2 - p1` with `q - p1`; its
magnitude is the perpendicular distance of `q` to the infinite line through
`p1` and `p2`, scaled by the line length. -/
def crossLine (p1 p2 q : ℚ × ℚ) : ℚ :=
  (p2.1 - p1.1) * (q.2 - p1.2) - (p2.2 - p1.2) * (q.1 - p1.1)

/-- Dot product of the line direction with `q - p1`; a positive multiple
(by the line length) of the signed along-line projection distance of `q`
from the first endpoint. -/
def alongLine (p1 p2 q : ℚ × ℚ) : ℚ :=
  (p2.1 - p1.1) * (q.1 - p1.1) + (p2.2 - p1.2) * (q.2 - p1.2)

/-- Squared length of the segment from `p1` to `p2`. -/
def sqLen (p1 p2 : ℚ × ℚ) : ℚ := (p2.1 - p1.1) ^ 2 + (p2.2 - p1.2) ^ 2

/-- Squared planar distance between two points. -/
def sqDist (p q : ℚ × ℚ) : ℚ := (q.1 - p.1) ^ 2 + (q.2 - p.2) ^ 2

/-- Modelled from the spec: the band test of the geo-profile accessor — the
perpendicular distance of `q` to the infinite line through `p1` and `p2` is
within `band` iff `crossLine² ≤ band² · sqLen`, which avoids square roots and
is exact over the rationals. -/
def withinBand (p1 p2 : ℚ × ℚ) (band : ℚ) (q : ℚ × ℚ) : Bool :=
  decide (crossLine p1 p2 q ^ 2 ≤ band ^ 2 * sqLen p1 p2)

/-- Modelled from the spec: the selection step of the geo-profile accessor —
retain the candidates whose perpendicular distance to the infinite line is
within the band and order them by signed along-line projection from the
first endpoint; coinciding endpoints degenerate the band to a disk and fall
back to point-radius semantics. -/
def profileSelection (p1 p2 : ℚ × ℚ) (band : ℚ) (cands : List ProfilePoint) :
    List ProfilePoint :=
  if p1 = p2 then
    sortByKey (fun c => sqDist p1 c.pos)
      (cands.filter (fun c => decide (sqDist p1 c.pos ≤ band ^ 2)))
  else
    sortByKey (fun c => alongLine p1 p2 c.pos)
      (cands.filter (fun c => withinBand p1 p2 band c.pos))

/-- Modelled from the spec: `SoilAPI.get_testlocations_profile` — unlike the
other accessors it returns the normalized table directly, not wrapped in a
result dictionary. -/
def get_testlocations_profile (p1 p2 : ℚ × ℚ) (band : ℚ) (cands : List ProfilePoint) :
    Table :=
  toTable geoNumCols ((profileSelection p1 p2 band cands).map ProfilePoint.fields)

/-- Modelled from the spec: one decoded page of a paginated list response —
its records and the continuation indicator, if any. -/
structure Page where
  records : List Record
  next : Option Nat
deriving DecidableEq, Repr

/-- Modelled from the spec: the maximum page count bounding the
pagination-following loop. -/
def maxPages : Nat := 500

/-- Modelled from the spec: the explicit, bounded pagination-following loop —
the continuation indicator is followed transparently and the pages are
concatenated; exhausting the page budget surfaces as a ResponseFormat error
carrying the query filters, never as a silently truncated result. -/
def followPages (server : Nat → Page) (fs : Filters) :
    Nat → Nat → Except ApiError (List Record)
  | 0, _ => .error (.responseFormat fs "maximum page count exceeded")
  | fuel + 1, tok =>
    match (server tok).next with
    | none => .ok (server tok).records
    | some t => (followPages server fs fuel t).map (fun rest => (server tok).records ++ rest)

/-- Modelled from the spec: the fetch stage of a list call — follow the page
chain from the first page within the maximum page count. -/
def fetchAllPages (server : Nat → Page) (fs : Filters) : Except ApiError (List Record) :=
  followPages server fs maxPages 0

/-- The complete page chain of a server, starting at a token: `PageChain
server tok n l` holds when the chain starting at `tok` ends after exactly
`n` pages and `l` is the concatenation of the records of all its pages. -/
inductive PageChain (server : Nat → Page) : Nat → Nat → List Record → Prop where
  | last (tok : Nat) : (server tok).next = none → PageChain server tok 1 (server tok).records
  | step (tok t n : Nat) (rest : List Record) :
      (server tok).next = some t → PageChain server t n rest →
      PageChain server tok (n + 1) ((server tok).records ++ rest)

theorem followPages_ok_chain (server : Nat → Page) (fs : Filters) (fuel tok : Nat)
    (l : List Record) (h : followPages server fs fuel tok = .ok l) :
    ∃ n, n ≤ fuel ∧ PageChain server tok n l := by
  induction fuel generalizing tok l with
  | zero => simp [followPages] at h
  | succ fuel ih =>
    unfold followPages at h
    cases hn : (server tok).next with
    | none =>
      rw [hn] at h
      refine ⟨1, Nat.one_le_iff_ne_zero.mpr (Nat.succ_ne_zero fuel), ?_⟩
      cases h
      exact PageChain.last tok hn
    | some t =>
      rw [hn] at h
      simp only [] at h
      cases hr : followPages server fs fuel t with
      | error e => rw [hr] at h; simp [Except.map] at h
      | ok rest =>
        rw [hr] at h
        simp [Except.map] at h
        obtain ⟨n, hle, hc⟩ := ih t rest hr
        exact ⟨n + 1, Nat.succ_le_succ hle, h ▸ PageChain.step tok t n rest hn hc⟩

theorem chain_followPages (server : Nat → Page) (fs : Filters) (tok n : Nat)
    (l : List Record) (hc : PageChain server tok n l) (fuel : Nat) (hle : n ≤ fuel) :
    followPages server fs fuel tok = .ok l := by
  induction hc generalizing fuel with
  | last tok hn =>
    cases fuel with
    | zero => omega
    | succ fuel => simp [followPages, hn]
  | step tok t m rest hn hrest ih =>
    cases fuel with
    | zero => omega
    | succ fuel =>
      have : m ≤ fuel := Nat.le_of_succ_le_succ hle
      simp [followPages, hn, ih fuel this, Except.map]

theorem followPages_error (server : Nat → Page) (fs : Filters) (fuel tok : Nat)
    (e : ApiError) (h : followPages server fs fuel tok = .error e) :
    e = .responseFormat fs "maximum page count exceeded" := by
  induction fuel generalizing tok with
  | zero =>
    simp [followPages] at h
    exact h.symm
  | succ fuel ih =>
    unfold followPages at h
    cases hn : (server tok).next with
    | none => rw [hn] at h; simp at h
    | some t =>
      rw [hn] at h
      simp only [] at h
      cases hr : followPages server fs fuel t with
      | error e2 =>
        rw [hr] at h
        simp [Except.map] at h
        exact ih t (h ▸ hr)
      | ok rest => rw [hr] at h; simp [Except.map] at h

theorem detailAccessor_nil (kind : DetailKind) (tbl : List Entry) (fs : Filters)
    (h : listQuery tbl fs = []) :
    detailAccessor kind (.ok tbl) fs = .error (.notFound fs) := by
  simp [detailAccessor, resolveDetail_nil tbl fs h]

theorem detailAccessor_single (kind : DetailKind) (tbl : List Entry) (fs : Filters) (e : Entry)
    (h : listQuery tbl fs = [e]) :
    detailAccessor kind (.ok tbl) fs = .ok (detailOutput kind e) := by
  simp [detailAccessor, resolveDetail_single tbl fs e h]

theorem detailAccessor_many (kind : DetailKind) (tbl : List Entry) (fs : Filters)
    (h : 2 ≤ (listQuery tbl fs).length) :
    detailAccessor kind (.ok tbl) fs =
      .error (.ambiguousResult fs ((listQuery tbl fs).map (fun e => recordId e.fields))) := by
  simp [detailAccessor, resolveDetail_many tbl fs h]

/-- C1: for every detail accessor (get_projectsite_detail,
get_assetlocation_detail, get_surveycampaign_detail, get_cpttest_detail,
get_insitutest_detail, get_batchlabtest_detail, get_sampletest_detail,
get_soilprofile_detail) and every set of supplied filters: zero matching
records fail with a NotFound error naming the filters used; exactly one
match returns that record; more than one match fails with an AmbiguousResult
error listing the candidate identifiers — never silently the first of
several matches. -/
theorem C1_detail_resolution (tbl : List Entry) (fs : Filters) :
    (listQuery tbl fs = [] →
      get_projectsite_detail (.ok tbl) fs = .error (.notFound fs) ∧
      get_assetlocation_detail (.ok tbl) fs = .error (.notFound fs) ∧
      get_surveycampaign_detail (.ok tbl) fs = .error (.notFound fs) ∧
      get_cpttest_detail (.ok tbl) fs = .error (.notFound fs) ∧
      get_insitutest_detail (.ok tbl) fs = .error (.notFound fs) ∧
      get_batchlabtest_detail (.ok tbl) fs = .error (.notFound fs) ∧
      get_sampletest_detail (.ok tbl) fs = .error (.notFound fs) ∧
      get_soilprofile_detail (.ok tbl) fs = .error (.notFound fs)) ∧
    (∀ e, listQuery tbl fs = [e] →
      get_projectsite_detail (.ok tbl) fs = .ok (detailOutput .plain e) ∧
      get_assetlocation_detail (.ok tbl) fs = .ok (detailOutput .plain e) ∧
      get_surveycampaign_detail (.ok tbl) fs = .ok (detailOutput .plain e) ∧
      get_cpttest_detail (.ok tbl) fs = .ok (detailOutput .cpt e) ∧
      get_insitutest_detail (.ok tbl) fs = .ok (detailOutput .rawdata e) ∧
      get_batchlabtest_detail (.ok tbl) fs = .ok (detailOutput .rawdata e) ∧
      get_sampletest_detail (.ok tbl) fs = .ok (detailOutput .rawdata e) ∧
      get_soilprofile_detail (.ok tbl) fs = .ok (detailOutput .soilprofile e)) ∧
    (2 ≤ (listQuery tbl fs).length →
      get_projectsite_detail (.ok tbl) fs =
        .error (.ambiguousResult fs ((listQuery tbl fs).map (fun e => recordId e.fields))) ∧
      get_assetlocation_detail (.ok tbl) fs =
        .error (.ambiguousResult fs ((listQuery tbl fs).map (fun e => recordId e.fields))) ∧
      get_surveycampaign_detail (.ok tbl) fs =
        .error (.ambiguousResult fs ((listQuery tbl fs).map (fun e => recordId e.fields))) ∧
      get_cpttest_detail (.ok tbl) fs =
        .error (.ambiguousResult fs ((listQuery tbl fs).map (fun e => recordId e.fields))) ∧
      get_insitutest_detail (.ok tbl) fs =
        .error (.ambiguousResult fs ((listQuery tbl fs).map (fun e => recordId e.fields))) ∧
      get_batchlabtest_detail (.ok tbl) fs =
        .error (.ambiguousResult fs ((listQuery tbl fs).map (fun e => recordId e.fields))) ∧
      get_sampletest_detail (.ok tbl) fs =
        .error (.ambiguousResult fs ((listQuery tbl fs).map (fun e => recordId e.fields))) ∧
      get_soilprofile_detail (.ok tbl) fs =
        .error (.ambiguousResult fs ((listQuery tbl fs).map (fun e => recordId e.fields)))) := by
  refine ⟨fun h => ?_, fun e h => ?_, fun h => ?_⟩
  · exact ⟨detailAccessor_nil _ tbl fs h, detailAccessor_nil _ tbl fs h,
      detailAccessor_nil _ tbl fs h, detailAccessor_nil _ tbl fs h,
      detailAccessor_nil _ tbl fs h, detailAccessor_nil _ tbl fs h,
      detailAccessor_nil _ tbl fs h, detailAccessor_nil _ tbl fs h⟩
  · exact ⟨detailAccessor_single _ tbl fs e h, detailAccessor_single _ tbl fs e h,
      detailAccessor_single _ tbl fs e h, detailAccessor_single _ tbl fs e h,
      detailAccessor_single _ tbl fs e h, detailAccessor_single _ tbl fs e h,
      detailAccessor_single _ tbl fs e h, detailAccessor_single _ tbl fs e h⟩
  · exact ⟨detailAccessor_many _ tbl fs h, detailAccessor_many _ tbl fs h,
      detailAccessor_many _ tbl fs h, detailAccessor_many _ tbl fs h,
      detailAccessor_many _ tbl fs h, detailAccessor_many _ tbl fs h,
      detailAccessor_many _ tbl fs h, detailAccessor_many _ tbl fs h⟩

/-- Witness for C1: a fixture table with exactly one record matching the
title filter, on which get_sampletest_detail returns that record. -/
theorem C1_detail_resolution_witness :
    get_sampletest_detail
        (.ok [Entry.mk [("title", Value.str "CIUc+BE")] [] [],
              Entry.mk [("title", Value.str "Other")] [] []])
        [("title", Value.str "CIUc+BE")] =
      .ok (detailOutput .rawdata (Entry.mk [("title", Value.str "CIUc+BE")] [] [])) := by
  have h := (C1_detail_resolution
      [Entry.mk [("title", Value.str "CIUc+BE")] [] [],
       Entry.mk [("title", Value.str "Other")] [] []]
      [("title", Value.str "CIUc+BE")]).2.1
      (Entry.mk [("title", Value.str "CIUc+BE")] [] []) (by decide)
  exact h.2.2.2.2.2.2.1

/-- C2: for every list accessor (get_projectsites, get_assetlocations,
get_surveycampaigns, get_testlocations, get_insitutests, get_batchlabtests,
get_geotechnicalsamples, get_sampletests, get_soilprofiles) and every
combination of supplied optional filters: the filters are combined with
logical AND, an absent filter imposes no constraint, every returned record
satisfies all supplied filters, and when no record matches the call succeeds
with an empty collection rather than raising an error. -/
theorem C2_list_accessors (tbl : List Entry) (fs : Filters) :
    (get_projectsites (.ok tbl) fs
        = .ok [("data", .table (toTable geoNumCols ((listQuery tbl fs).map Entry.fields)))] ∧
     get_assetlocations (.ok tbl) fs
        = .ok [("data", .table (toTable geoNumCols ((listQuery tbl fs).map Entry.fields)))] ∧
     get_surveycampaigns (.ok tbl) fs
        = .ok [("data", .table (toTable geoNumCols ((listQuery tbl fs).map Entry.fields)))] ∧
     get_testlocations (.ok tbl) fs
        = .ok [("data", .table (toTable geoNumCols ((listQuery tbl fs).map Entry.fields)))] ∧
     get_insitutests (.ok tbl) fs
        = .ok [("data", .table (toTable geoNumCols ((listQuery tbl fs).map Entry.fields)))] ∧
     get_batchlabtests (.ok tbl) fs
        = .ok [("data", .table (toTable geoNumCols ((listQuery tbl fs).map Entry.fields)))] ∧
     get_geotechnicalsamples (.ok tbl) fs
        = .ok [("data", .table (toTable geoNumCols ((listQuery tbl fs).map Entry.fields)))] ∧
     get_sampletests (.ok tbl) fs
        = .ok [("data", .table (toTable geoNumCols ((listQuery tbl fs).map Entry.fields)))] ∧
     get_soilprofiles (.ok tbl) fs
        = .ok [("data", .table (toTable geoNumCols ((listQuery tbl fs).map Entry.fields)))]) ∧
    (∀ e, e ∈ listQuery tbl fs ↔
        e ∈ tbl ∧ ∀ kv ∈ fs, assocLookup e.fields kv.1 = some kv.2) ∧
    ((∀ e ∈ tbl, matchesFilters e.fields fs = false) → listQuery tbl fs = []) := by
  refine ⟨⟨rfl, rfl, rfl, rfl, rfl, rfl, rfl, rfl, rfl⟩, fun e => ?_, fun h => ?_⟩
  · rw [mem_listQuery, matchesFilters_iff]
  · refine List.filter_eq_nil.mpr ?_
    intro e he
    rw [h e he]
    simp

/-- Witness for C2: against a table whose only record is in campaign A, the
campaign-B query matches nothing, so the list query is empty (and by the
first conjunct the accessor still succeeds with an empty table). -/
theorem C2_list_accessors_witness :
    listQuery [Entry.mk [("campaign", Value.str "Seafloor CPT")] [] []]
        [("campaign", Value.str "Borehole investigation")] = [] :=
  (C2_list_accessors [Entry.mk [("campaign", Value.str "Seafloor CPT")] [] []]
      [("campaign", Value.str "Borehole investigation")]).2.2 (by decide)

/-- C3: for every center point, every radius and every finite set of located
candidates, get_closest_testlocation returns exactly the candidates whose
great-circle distance from the center is within the radius, sorted ascending
by that distance; an empty selection is returned without error, and in
particular a radius of 0 against candidates not coincident with the center
(whose distance is then positive) yields an empty collection.  The haversine
distance on the 6371 km sphere enters as the distance-function parameter
`dist`; the properties hold for every distance function, hence for it. -/
theorem C3_closest_testlocation (dist : Coord → Coord → ℚ) (center : Coord) (radius : ℚ)
    (cands : List GeoCand) :
    (∀ c, c ∈ closestSelection dist center radius cands ↔
        c ∈ cands ∧ dist center c.coord ≤ radius) ∧
    List.Pairwise (fun a b => dist center a.coord ≤ dist center b.coord)
      (closestSelection dist center radius cands) ∧
    ((∀ c ∈ cands, radius < dist center c.coord) →
        closestSelection dist center radius cands = []) ∧
    get_closest_testlocation dist center radius cands =
      [("data", .table (toTable geoNumCols
          ((closestSelection dist center radius cands).map GeoCand.fields)))] ∧
    ((∀ c ∈ cands, c.coord ≠ center → 0 < dist center c.coord) →
      (∀ c ∈ cands, c.coord ≠ center) →
      closestSelection dist center 0 cands = []) := by
  refine ⟨fun c => ?_, sortByKey_sorted _ _, fun h => ?_, rfl, fun hpos hne => ?_⟩
  · rw [closestSelection, mem_sortByKey, List.mem_filter, decide_eq_true_iff]
  · rw [closestSelection, List.filter_eq_nil_iff.mpr ?_]
    · rfl
    · intro c hc
      simpa using not_le.mpr (h c hc)
  · rw [closestSelection, List.filter_eq_nil_iff.mpr ?_]
    · rfl
    · intro c hc
      simpa using not_le.mpr (hpos c hc (hne c hc))

/-- Witness for C3: a radius of 0 around the origin, with a single candidate
one unit east (squared-planar distance as the concrete distance function),
selects nothing. -/
theorem C3_closest_testlocation_witness :
    closestSelection (fun a b => (a.1 - b.1) ^ 2 + (a.2 - b.2) ^ 2) (0, 0) 0
        [GeoCand.mk [("title", Value.str "BH-1")] (0, 1)] = [] :=
  (C3_closest_testlocation (fun a b => (a.1 - b.1) ^ 2 + (a.2 - b.2) ^ 2) (0, 0) 0
      [GeoCand.mk [("title", Value.str "BH-1")] (0, 1)]).2.2.2.2
    (by intro c hc h; rw [List.mem_singleton] at hc; subst hc; norm_num)
    (by intro c hc; rw [List.mem_singleton] at hc; subst hc; simp [Prod.ext_iff])

/-- C4: for every pair of endpoints, every band half-width and every finite
set of candidate points, get_testlocations_profile retains exactly the
candidates whose perpendicular distance to the infinite line through the
endpoints is within the band (a point exactly on the line is retained for
every band width; a point strictly outside the band is excluded), orders the
retained points by their signed along-line projection from the first
endpoint, and coinciding endpoints fall back to point-radius (disk)
semantics rather than failing.  The band test is the exact rational
comparison crossLine² ≤ band²·sqLen, and the ordering key alongLine is a
positive multiple of the signed projection distance. -/
theorem C4_testlocations_profile (p1 p2 : ℚ × ℚ) (band : ℚ) (cands : List ProfilePoint) :
    (p1 ≠ p2 → ∀ c, c ∈ profileSelection p1 p2 band cands ↔
        c ∈ cands ∧ crossLine p1 p2 c.pos ^ 2 ≤ band ^ 2 * sqLen p1 p2) ∧
    (p1 ≠ p2 → ∀ c ∈ cands, crossLine p1 p2 c.pos = 0 →
        c ∈ profileSelection p1 p2 band cands) ∧
    (p1 ≠ p2 → ∀ c, band ^ 2 * sqLen p1 p2 < crossLine p1 p2 c.pos ^ 2 →
        c ∉ profileSelection p1 p2 band cands) ∧
    (p1 ≠ p2 → List.Pairwise (fun a b => alongLine p1 p2 a.pos ≤ alongLine p1 p2 b.pos)
        (profileSelection p1 p2 band cands)) ∧
    profileSelection p1 p1 band cands =
      sortByKey (fun c => sqDist p1 c.pos)
        (cands.filter (fun c => decide (sqDist p1 c.pos ≤ band ^ 2))) ∧
    get_testlocations_profile p1 p2 band cands =
      toTable geoNumCols ((profileSelection p1 p2 band cands).map ProfilePoint.fields) := by
  have hmem : p1 ≠ p2 → ∀ c, c ∈ profileSelection p1 p2 band cands ↔
      c ∈ cands ∧ crossLine p1 p2 c.pos ^ 2 ≤ band ^ 2 * sqLen p1 p2 := by
    intro hne c
    rw [profileSelection, if_neg hne, mem_sortByKey, List.mem_filter, withinBand,
      decide_eq_true_iff]
  refine ⟨hmem, fun hne c hc h0 => ?_, fun hne c h => ?_, fun hne => ?_, ?_, rfl⟩
  · refine (hmem hne c).mpr ⟨hc, ?_⟩
    rw [h0]
    have h1 : (0 : ℚ) ≤ band ^ 2 := sq_nonneg band
    have h2 : (0 : ℚ) ≤ sqLen p1 p2 := add_nonneg (sq_nonneg _) (sq_nonneg _)
    simpa using mul_nonneg h1 h2
  · intro hc
    exact absurd ((hmem hne c).mp hc).2 (not_le.mpr h)
  · rw [profileSelection, if_neg hne]
    exact sortByKey_sorted _ _
  · rw [profileSelection, if_pos rfl]

/-- Witness for C4: with endpoints (0,0) and (4,0) and a zero-width band, the
point (2,0) lying exactly on the line is retained. -/
theorem C4_testlocations_profile_witness :
    ProfilePoint.mk [("title", Value.str "BH-2")] 2 0 ∈
      profileSelection (0, 0) (4, 0) 0 [ProfilePoint.mk [("title", Value.str "BH-2")] 2 0] :=
  (C4_testlocations_profile (0, 0) (4, 0) 0
      [ProfilePoint.mk [("title", Value.str "BH-2")] 2 0]).2.1
    (by norm_num [Prod.ext_iff]) (ProfilePoint.mk [("title", Value.str "BH-2")] 2 0)
    (List.mem_singleton.mpr rfl) (by norm_num [crossLine, ProfilePoint.pos])

/-- C5: for every list response with a continuation indicator, the client
follows the continuation transparently and concatenates all pages before
returning (a successful result is exactly the concatenation of a complete
page chain, never a truncation); the loop is bounded by the maximum page
count, and exceeding the bound surfaces as a ResponseFormat error. -/
theorem C5_pagination (server : Nat → Page) (fs : Filters) (fuel tok : Nat) :
    (∀ l, followPages server fs fuel tok = .ok l →
        ∃ n, n ≤ fuel ∧ PageChain server tok n l) ∧
    (∀ n l, PageChain server tok n l → n ≤ fuel →
        followPages server fs fuel tok = .ok l) ∧
    (∀ e, followPages server fs fuel tok = .error e →
        e = .responseFormat fs "maximum page count exceeded") ∧
    fetchAllPages server fs = followPages server fs maxPages 0 := by
  exact ⟨fun l h => followPages_ok_chain server fs fuel tok l h,
    fun n l hc hle => chain_followPages server fs tok n l hc fuel hle,
    fun e h => followPages_error server fs fuel tok e h, rfl⟩

/-- Witness for C5: a two-page fixture server (page 0 continues to page 1,
page 1 is final) whose complete chain is concatenated within the page
budget. -/
theorem C5_pagination_witness :
    followPages
        (fun t => if t = 0 then Page.mk [[("id", Value.str "p0")]] (some 1)
                  else Page.mk [[("id", Value.str "p1")]] none)
        [] maxPages 0 =
      .ok [[("id", Value.str "p0")], [("id", Value.str "p1")]] :=
  (C5_pagination
      (fun t => if t = 0 then Page.mk [[("id", Value.str "p0")]] (some 1)
                else Page.mk [[("id", Value.str "p1")]] none)
      [] maxPages 0).2.1 2 [[("id", Value.str "p0")], [("id", Value.str "p1")]]
    (PageChain.step 0 1 1 [[("id", Value.str "p1")]] rfl (PageChain.last 1 rfl))
    (by decide)

theorem resolveDetail_error_args (tbl : List Entry) (fs : Filters) (e : ApiError)
    (h : resolveDetail tbl fs = .error e) : e.args = fs := by
  unfold resolveDetail at h
  match hq : listQuery tbl fs with
  | [] =>
    rw [hq] at h
    cases h
    rfl
  | [x] => rw [hq] at h; simp at h
  | a :: b :: es =>
    rw [hq] at h
    cases h
    rfl

theorem detailAccessor_error_args (kind : DetailKind) (tbl : List Entry) (fs : Filters)
    (e : ApiError) (h : detailAccessor kind (.ok tbl) fs = .error e) : e.args = fs := by
  unfold detailAccessor at h
  simp only [] at h
  cases hr : resolveDetail tbl fs with
  | error e2 =>
    rw [hr] at h
    cases h
    exact resolveDetail_error_args tbl fs e hr
  | ok x => rw [hr] at h; simp at h

/-- C6: every failure of a retrieval call is one of exactly five kinds —
TransportError, AuthorizationError, ResponseFormatError, NotFound,
AmbiguousResult — each propagates to the caller unmodified with no local
recovery, fallback or retry (a transport-stage error is returned as-is by
every accessor), every failure carries the filters/arguments that produced
it, and the list stage itself never fails. -/
theorem C6_error_taxonomy :
    (∀ e : ApiError,
      (∃ a d, e = .transport a d) ∨ (∃ a d, e = .authorizationError a d) ∨
      (∃ a d, e = .responseFormat a d) ∨ (∃ a, e = .notFound a) ∨
      (∃ a cs, e = .ambiguousResult a cs)) ∧
    (∀ e fs, listAccessor (.error e) fs = .error e) ∧
    (∀ kind e fs, detailAccessor kind (.error e) fs = .error e) ∧
    (∀ kind tbl fs e, detailAccessor kind (.ok tbl) fs = .error e → e.args = fs) ∧
    (∀ tbl fs e, listAccessor (.ok tbl) fs = .error e → False) ∧
    (∀ a d, (ApiError.transport a d).args = a) ∧
    (∀ a d, (ApiError.authorizationError a d).args = a) ∧
    (∀ a d, (ApiError.responseFormat a d).args = a) ∧
    (∀ a, (ApiError.notFound a).args = a) ∧
    (∀ a cs, (ApiError.ambiguousResult a cs).args = a) := by
  refine ⟨fun e => ?_, fun e fs => rfl, fun kind e fs => rfl,
    fun kind tbl fs e h => detailAccessor_error_args kind tbl fs e h,
    fun tbl fs e h => by simp [listAccessor] at h,
    fun a d => rfl, fun a d => rfl, fun a d => rfl, fun a => rfl, fun a cs => rfl⟩
  cases e with
  | transport a d => exact Or.inl ⟨a, d, rfl⟩
  | authorizationError a d => exact Or.inr (Or.inl ⟨a, d, rfl⟩)
  | responseFormat a d => exact Or.inr (Or.inr (Or.inl ⟨a, d, rfl⟩))
  | notFound a => exact Or.inr (Or.inr (Or.inr (Or.inl ⟨a, rfl⟩)))
  | ambiguousResult a cs => exact Or.inr (Or.inr (Or.inr (Or.inr ⟨a, cs, rfl⟩)))

/-- Witness for C6: the NotFound failure of a detail call against an empty
table carries exactly the filters that produced it. -/
theorem C6_error_taxonomy_witness :
    (ApiError.notFound [("projectsite", Value.str "Borssele I")]).args =
      [("projectsite", Value.str "Borssele I")] :=
  C6_error_taxonomy.2.2.2.1 DetailKind.plain []
    [("projectsite", Value.str "Borssele I")]
    (ApiError.notFound [("projectsite", Value.str "Borssele I")]) rfl

/-- C7: for every page of JSON records normalized by a list/summary
accessor, the table has one row per record, its column set is the union of
keys observed across the records (no fixed schema), a key missing from a
record yields an explicit null in that row, and the row order equals the
server response order (row i is the normalization of record i); the list
accessors normalize with exactly this conversion. -/
theorem C7_tabular_normalization (numCols : List String) (rs : List Record) :
    (toTable numCols rs).rows.length = rs.length ∧
    (∀ c, c ∈ (toTable numCols rs).cols ↔ ∃ r ∈ rs, c ∈ keysOf r) ∧
    (∀ i r c, rs.get? i = some r → c ∈ (toTable numCols rs).cols →
        assocLookup r c = none →
        rowValue (toTable numCols rs) i c = some Value.null) ∧
    (∀ i r, rs.get? i = some r →
        (toTable numCols rs).rows.get? i =
          some ((toTable numCols rs).cols.map (coerceField numCols r))) ∧
    (∀ tbl fs, listAccessor (.ok tbl) fs =
        .ok [("data", .table (toTable geoNumCols ((listQuery tbl fs).map Entry.fields)))]) := by
  refine ⟨?_, fun c => ?_, fun i r c hi hc hl => ?_, fun i r hi => ?_, fun tbl fs => rfl⟩
  · simp [toTable]
  · exact mem_unionKeys rs c
  · rw [rowValue_toTable numCols rs i r hi c hc]
    unfold coerceField
    rw [hl]
  · unfold toTable
    rw [List.get?_map, hi]
    rfl

/-- Witness for C7: over two records with disjoint keys, the first row has
an explicit null in the column contributed only by the second record. -/
theorem C7_tabular_normalization_witness :
    rowValue (toTable [] [[("a", Value.str "x")], [("b", Value.str "y")]]) 0 "b" =
      some Value.null :=
  (C7_tabular_normalization [] [[("a", Value.str "x")], [("b", Value.str "y")]]).2.2.1
    0 [("a", Value.str "x")] "b" rfl (by decide) rfl

/-- C8: for every list response, normalizing and reading the table back
reproduces the per-record field values exactly: a declared-numeric field
holding a well-formed numeric string becomes its exact rational value
(lossless coercion), an already numeric field is preserved, a
declared-numeric field whose string fails to parse keeps the original string
and flags the row, and the call as a whole never fails. -/
theorem C8_numeric_coercion (numCols : List String) (rs : List Record)
    (i : Nat) (r : Record) (c : String) (hi : rs.get? i = some r) (hc : c ∈ numCols) :
    (∀ s q, assocLookup r c = some (.str s) → parseNum s = some q →
        rowValue (toTable numCols rs) i c = some (.num q)) ∧
    (∀ q, assocLookup r c = some (.num q) →
        rowValue (toTable numCols rs) i c = some (.num q)) ∧
    (∀ s, assocLookup r c = some (.str s) → parseNum s = none →
        rowValue (toTable numCols rs) i c = some (.str s) ∧
        (toTable numCols rs).flags.get? i = some true) ∧
    (∀ tbl fs, ∃ out, listAccessor (.ok tbl) fs = .ok out) := by
  have hr : r ∈ rs := List.get?_mem hi
  have hcol : ∀ {v : Value}, assocLookup r c = some v → c ∈ unionKeys rs := by
    intro v hv
    exact (mem_unionKeys rs c).mpr ⟨r, hr, assocLookup_some_mem_keys r c v hv⟩
  refine ⟨fun s q hl hp => ?_, fun q hl => ?_, fun s hl hp => ⟨?_, ?_⟩,
    fun tbl fs => ⟨_, rfl⟩⟩
  · rw [rowValue_toTable numCols rs i r hi c (hcol hl)]
    simp [coerceField, hl, hc, coerceValue, hp]
  · rw [rowValue_toTable numCols rs i r hi c (hcol hl)]
    simp [coerceField, hl, hc, coerceValue]
  · rw [rowValue_toTable numCols rs i r hi c (hcol hl)]
    simp [coerceField, hl, hc, coerceValue, hp]
  · rw [flags_toTable numCols rs i r hi]
    congr 1
    refine List.any_eq_true.mpr ⟨c, hcol hl, ?_⟩
    simp [hc, hl, coerceValue, hp]

/-- Witness for C8: the textual coordinate "51" in a declared numeric column
is coerced to the exact rational 51 in the table. -/
theorem C8_numeric_coercion_witness :
    rowValue (toTable ["latitude"] [[("latitude", Value.str "51")]]) 0 "latitude" =
      some (Value.num 51) :=
  (C8_numeric_coercion ["latitude"] [[("latitude", Value.str "51")]]
      0 [("latitude", Value.str "51")] "latitude" rfl (by decide)).1 "51" 51 rfl rfl

/-- C9: get_soilprofile_detail returns the layer list ordered by top depth
ascending under the "soilprofile" key; when the server-provided order
already satisfies this the normalizer returns it unchanged (it validates and
only sorts when necessary), and it exposes every layer with its numeric
parameters and piecewise parameter definitions intact (the normalized list
is a permutation of the payload layers). -/
theorem C9_soilprofile_layers (tbl : List Entry) (fs : Filters) (e : Entry)
    (h : resolveDetail tbl fs = .ok e) :
    get_soilprofile_detail (.ok tbl) fs =
      .ok [("data", .record e.fields),
           ("soilprofile", .profile (normalizeLayers e.layers))] ∧
    List.Pairwise (fun a b : Layer => a.top ≤ b.top) (normalizeLayers e.layers) ∧
    (List.Pairwise (fun a b : Layer => a.top ≤ b.top) e.layers →
        normalizeLayers e.layers = e.layers) ∧
    List.Perm (normalizeLayers e.layers) e.layers := by
  refine ⟨?_, normalizeLayers_sorted e.layers, normalizeLayers_of_sorted e.layers,
    normalizeLayers_perm e.layers⟩
  show detailAccessor .soilprofile (.ok tbl) fs = _
  unfold detailAccessor
  simp only []
  rw [h]
  rfl

/-- Witness for C9: a profile entry resolved by title whose two layers reach
the caller under the "soilprofile" key as the normalized layer list. -/
theorem C9_soilprofile_layers_witness :
    get_soilprofile_detail
        (.ok [Entry.mk [("title", Value.str "Inferred layering")] []
            [Layer.mk 2 4 "CLAY" [] [], Layer.mk 0 2 "SAND" [] []]])
        [("title", Value.str "Inferred layering")] =
      .ok [("data", .record [("title", Value.str "Inferred layering")]),
           ("soilprofile", .profile (normalizeLayers
              [Layer.mk 2 4 "CLAY" [] [], Layer.mk 0 2 "SAND" [] []]))] :=
  (C9_soilprofile_layers
      [Entry.mk [("title", Value.str "Inferred layering")] []
          [Layer.mk 2 4 "CLAY" [] [], Layer.mk 0 2 "SAND" [] []]]
      [("title", Value.str "Inferred layering")]
      (Entry.mk [("title", Value.str "Inferred layering")] []
          [Layer.mk 2 4 "CLAY" [] [], Layer.mk 0 2 "SAND" [] []]) rfl).1

theorem listAccessor_ok_shape (tbl : List Entry) (fs : Filters)
    (out : List (String × Out)) (h : listAccessor (.ok tbl) fs = .ok out) :
    ∃ t, assocLookup out "data" = some (.table t) := by
  simp only [listAccessor] at h
  cases h
  exact ⟨_, rfl⟩

theorem detailAccessor_ok_out (kind : DetailKind) (tbl : List Entry) (fs : Filters)
    (out : List (String × Out)) (h : detailAccessor kind (.ok tbl) fs = .ok out) :
    ∃ e, resolveDetail tbl fs = .ok e ∧ out = detailOutput kind e := by
  unfold detailAccessor at h
  simp only [] at h
  cases hr : resolveDetail tbl fs with
  | error e2 => rw [hr] at h; simp at h
  | ok e =>
    rw [hr] at h
    cases h
    exact ⟨e, rfl, rfl⟩

/-- C10: every public accessor returns its tabular payload under the "data"
key of a result dictionary; each detail accessor additionally exposes its
structured payload under its entity-specific key ("cpt" for
get_cpttest_detail, "rawdata" for get_insitutest_detail /
get_batchlabtest_detail / get_sampletest_detail, "soilprofile" for
get_soilprofile_detail); the single exception is get_testlocations_profile,
which returns the result table directly, unwrapped. -/
theorem C10_result_shapes (tbl : List Entry) (fs : Filters) :
    (∀ out, get_projectsites (.ok tbl) fs = .ok out →
        ∃ t, assocLookup out "data" = some (Out.table t)) ∧
    (∀ out, get_assetlocations (.ok tbl) fs = .ok out →
        ∃ t, assocLookup out "data" = some (Out.table t)) ∧
    (∀ out, get_surveycampaigns (.ok tbl) fs = .ok out →
        ∃ t, assocLookup out "data" = some (Out.table t)) ∧
    (∀ out, get_testlocations (.ok tbl) fs = .ok out →
        ∃ t, assocLookup out "data" = some (Out.table t)) ∧
    (∀ out, get_insitutests (.ok tbl) fs = .ok out →
        ∃ t, assocLookup out "data" = some (Out.table t)) ∧
    (∀ out, get_batchlabtests (.ok tbl) fs = .ok out →
        ∃ t, assocLookup out "data" = some (Out.table t)) ∧
    (∀ out, get_geotechnicalsamples (.ok tbl) fs = .ok out →
        ∃ t, assocLookup out "data" = some (Out.table t)) ∧
    (∀ out, get_sampletests (.ok tbl) fs = .ok out →
        ∃ t, assocLookup out "data" = some (Out.table t)) ∧
    (∀ out, get_soilprofiles (.ok tbl) fs = .ok out →
        ∃ t, assocLookup out "data" = some (Out.table t)) ∧
    (∀ out, get_projectsite_detail (.ok tbl) fs = .ok out →
        ∃ r, assocLookup out "data" = some (Out.record r)) ∧
    (∀ out, get_assetlocation_detail (.ok tbl) fs = .ok out →
        ∃ r, assocLookup out "data" = some (Out.record r)) ∧
    (∀ out, get_surveycampaign_detail (.ok tbl) fs = .ok out →
        ∃ r, assocLookup out "data" = some (Out.record r)) ∧
    (∀ out, get_cpttest_detail (.ok tbl) fs = .ok out →
        (∃ r, assocLookup out "data" = some (Out.record r)) ∧
        ∃ t, assocLookup out "cpt" = some (Out.table t)) ∧
    (∀ out, get_insitutest_detail (.ok tbl) fs = .ok out →
        (∃ r, assocLookup out "data" = some (Out.record r)) ∧
        ∃ t, assocLookup out "rawdata" = some (Out.table t)) ∧
    (∀ out, get_batchlabtest_detail (.ok tbl) fs = .ok out →
        (∃ r, assocLookup out "data" = some (Out.record r)) ∧
        ∃ t, assocLookup out "rawdata" = some (Out.table t)) ∧
    (∀ out, get_sampletest_detail (.ok tbl) fs = .ok out →
        (∃ r, assocLookup out "data" = some (Out.record r)) ∧
        ∃ t, assocLookup out "rawdata" = some (Out.table t)) ∧
    (∀ out, get_soilprofile_detail (.ok tbl) fs = .ok out →
        (∃ r, assocLookup out "data" = some (Out.record r)) ∧
        ∃ ls, assocLookup out "soilprofile" = some (Out.profile ls)) ∧
    (∀ dist center radius cands,
        ∃ t, assocLookup (get_closest_testlocation dist center radius cands) "data"
          = some (Out.table t)) ∧
    (∀ p1 p2 band cands, get_testlocations_profile p1 p2 band cands =
        toTable geoNumCols ((profileSelection p1 p2 band cands).map ProfilePoint.fields)) := by
  refine ⟨fun out h => listAccessor_ok_shape tbl fs out h,
    fun out h => listAccessor_ok_shape tbl fs out h,
    fun out h => listAccessor_ok_shape tbl fs out h,
    fun out h => listAccessor_ok_shape tbl fs out h,
    fun out h => listAccessor_ok_shape tbl fs out h,
    fun out h => listAccessor_ok_shape tbl fs out h,
    fun out h => listAccessor_ok_shape tbl fs out h,
    fun out h => listAccessor_ok_shape tbl fs out h,
    fun out h => listAccessor_ok_shape tbl fs out h,
    fun out h => ?_, fun out h => ?_, fun out h => ?_,
    fun out h => ?_, fun out h => ?_, fun out h => ?_, fun out h => ?_,
    fun out h => ?_,
    fun dist center radius cands => ⟨_, rfl⟩,
    fun p1 p2 band cands => rfl⟩
  · obtain ⟨e, _, rfl⟩ := detailAccessor_ok_out .plain tbl fs out h
    exact ⟨e.fields, rfl⟩
  · obtain ⟨e, _, rfl⟩ := detailAccessor_ok_out .plain tbl fs out h
    exact ⟨e.fields, rfl⟩
  · obtain ⟨e, _, rfl⟩ := detailAccessor_ok_out .plain tbl fs out h
    exact ⟨e.fields, rfl⟩
  · obtain ⟨e, _, rfl⟩ := detailAccessor_ok_out .cpt tbl fs out h
    exact ⟨⟨e.fields, rfl⟩, ⟨toTable [] e.raw, rfl⟩⟩
  · obtain ⟨e, _, rfl⟩ := detailAccessor_ok_out .rawdata tbl fs out h
    exact ⟨⟨e.fields, rfl⟩, ⟨toTable [] e.raw, rfl⟩⟩
  · obtain ⟨e, _, rfl⟩ := detailAccessor_ok_out .rawdata tbl fs out h
    exact ⟨⟨e.fields, rfl⟩, ⟨toTable [] e.raw, rfl⟩⟩
  · obtain ⟨e, _, rfl⟩ := detailAccessor_ok_out .rawdata tbl fs out h
    exact ⟨⟨e.fields, rfl⟩, ⟨toTable [] e.raw, rfl⟩⟩
  · obtain ⟨e, _, rfl⟩ := detailAccessor_ok_out .soilprofile tbl fs out h
    exact ⟨⟨e.fields, rfl⟩, ⟨normalizeLayers e.layers, rfl⟩⟩

/-- Witness for C10: the empty-table projectsites call succeeds and its
result dictionary exposes a table under the "data" key. -/
theorem C10_result_shapes_witness :
    ∃ t, assocLookup [("data", Out.table (toTable geoNumCols ([] : List Record)))] "data" =
      some (Out.table t) :=
  (C10_result_shapes [] []).1 [("data", Out.table (toTable geoNumCols []))] rfl

end Owi
